import Mathlib

/-!
Shallow embedding of the HLTV match-statistics scraper (src/main.py).

The HTML parse capability (BeautifulSoup with the html.parser builder) is
modelled by a small DOM tree: an element node carries the attributes the
program queries (tag name, id, the class attribute as its whitespace-split
token list, href) and its children; a text node carries a string.  The
class attribute is `none` when absent and `some tokens` when present
(`class=""` parses to `some []`).  `find_all` searches descendants in
document order; `recursive=False` restricts to direct children; `find`
returns the first match.
-/

inductive HNode where
  | text (s : String) : HNode
  | elem (tag : String) (idAttr : Option String) (classes : Option (List String))
      (href : Option String) (children : List HNode) : HNode

namespace HNode

/-- Direct children of a node (a text node has none). -/
def childrenOf : HNode → List HNode
  | .text _ => []
  | .elem _ _ _ _ cs => cs

/-- All descendant nodes in document order (pre-order), excluding the node
itself, as BeautifulSoup `find_all` enumerates them. -/
def descendants : HNode → List HNode
  | .text _ => []
  | .elem _ _ _ _ cs => descList cs
where
  descList : List HNode → List HNode
  | [] => []
  | c :: rest => c :: descendants c ++ descList rest

/-- All text pieces of a node in document order. -/
def textPieces : HNode → List String
  | .text s => [s]
  | .elem _ _ _ _ cs => piecesList cs
where
  piecesList : List HNode → List String
  | [] => []
  | c :: rest => textPieces c ++ piecesList rest

/-- Models Python `.strip()`: leading and trailing whitespace removed. -/
def stripStr (s : String) : String :=
  String.mk (((s.toList.dropWhile Char.isWhitespace).reverse.dropWhile
    Char.isWhitespace).reverse)

/-- Models `get_text(strip=True)`: every descendant string stripped and
concatenated. -/
def getTextStrip (n : HNode) : String :=
  String.join ((textPieces n).map stripStr)

/-- True for an element node with the given tag name (the `name` filter of
`find_all` matches only tags). -/
def isTag (t : String) : HNode → Bool
  | .elem tag _ _ _ _ => tag == t
  | .text _ => false

/-- Models the string class filter `class_="c"`: the tag has a class
attribute one of whose tokens is `c`. -/
def hasClass (c : String) : HNode → Bool
  | .elem _ _ (some cs) _ _ => cs.contains c
  | _ => false

/-- Models the filter `class_=lambda c: c == ""` under html.parser class
tokenisation: it matches exactly the tags whose class attribute is present
but splits to no tokens (`class=""`).  A tag without a class attribute is
offered `None` to the lambda and rejected; any class token makes both the
per-token test and the joined-string test fail. -/
def emptyClassMarker : HNode → Bool
  | .elem _ _ (some cs) _ _ => cs.isEmpty
  | _ => false

/-- Models the filter `id="i"`. -/
def hasId (i : String) : HNode → Bool
  | .elem _ (some j) _ _ _ => j == i
  | _ => false

/-- Models the filter `href=True` (attribute present). -/
def hasHref : HNode → Bool
  | .elem _ _ _ (some _) _ => true
  | _ => false

/-- Models `tag.get("href", ...)` absent case as `none`. -/
def getHref : HNode → Option String
  | .elem _ _ _ h _ => h
  | .text _ => none

/-- The class attribute as its token list, `none` when absent. -/
def getClasses : HNode → Option (List String)
  | .elem _ _ c _ _ => c
  | .text _ => none

/-- Models `tag.find_all(filter)` (recursive): all matching descendants in
document order. -/
def findAllDesc (n : HNode) (p : HNode → Bool) : List HNode :=
  (descendants n).filter p

/-- Models `tag.find(filter)`: the first matching descendant, if any. -/
def findDesc (n : HNode) (p : HNode → Bool) : Option HNode :=
  (findAllDesc n p).head?

/-- Models `tag.find_all(filter, recursive=False)`: matching direct
children only. -/
def findAllChildren (n : HNode) (p : HNode → Bool) : List HNode :=
  (childrenOf n).filter p

end HNode

open HNode

/-! ## Data model: the dictionaries built by the scraper

Python dictionaries are modelled as structures with optional fields, so the
`dict.get(key, default)` reads of the export stage keep their meaning: an
absent key is `none`. -/

structure PlayerData where
  player : Option String
  kd : Option String
  plus_minus : Option String
  adr : Option String
  kast : Option String
  rating : Option String

structure TeamStats where
  teamName : Option String
  tableType : Option String
  players : Option (List PlayerData)

structure MatchData where
  match_url : Option String
  teamStats : Option (List TeamStats)

/-! ## Listing stage: scrape_results_page -/

/-- The site origin prepended to site-relative links. -/
def siteOrigin : String := "https://www.hltv.org"

/-- Models Python `s.startswith(p)`. -/
def strBeginsWith (s p : String) : Bool :=
  p.toList.isPrefixOf s.toList

/-- Filter for `find_all("div", class_="result-con")`. -/
def resultConP (n : HNode) : Bool := isTag "div" n && hasClass "result-con" n

/-- Filter for `find("a", class_="a-reset")`. -/
def aResetP (n : HNode) : Bool := isTag "a" n && hasClass "a-reset" n

/-- The parsing core of `scrape_results_page` (src/main.py lines 14-28),
applied to the parsed listing page. -/
def scrape_results_page (soup : HNode) : List String :=
  List.foldl
    (fun match_urls result_con =>
      match findDesc result_con aResetP with
      | some anchor =>
        let relative_url := (getHref anchor).getD ""
        let full_url :=
          if strBeginsWith relative_url "/" then siteOrigin ++ relative_url
          else relative_url
        match_urls ++ [full_url]
      | none => match_urls)
    [] (findAllDesc soup resultConP)

/-! ## Extraction stage: scrape_match_stats -/

/-- Filter for `find("div", class_="matchstats")`. -/
def matchstatsP (n : HNode) : Bool := isTag "div" n && hasClass "matchstats" n

/-- Filter for `find("div", id="all-content")`. -/
def allContentP (n : HNode) : Bool := isTag "div" n && hasId "all-content" n

/-- Filter for `find("tr", class_="header-row")`. -/
def headerRowP (n : HNode) : Bool := isTag "tr" n && hasClass "header-row" n

/-- Filter for `find("a", class_="teamName")`. -/
def teamNameP (n : HNode) : Bool := isTag "a" n && hasClass "teamName" n

/-- Filter for `find_all("tr", class_=lambda c: c == "")`. -/
def emptyRowP (n : HNode) : Bool := isTag "tr" n && emptyClassMarker n

/-- Filter for `find("a", href=True)`. -/
def playerLinkP (n : HNode) : Bool := isTag "a" n && hasHref n

/-- The player display name from the first cell (src/main.py lines
137-146): the stripped text of its first link, or the sentinel "N/A" when
the cell holds no link. -/
def playerNameOf (c : HNode) : String :=
  match findDesc c playerLinkP with
  | some player_link => getTextStrip player_link
  | none => "N/A"

/-- The cell-list step of the player-row parse (src/main.py lines
132-162): fewer than six cells skips the row (`continue`), otherwise
cells 0-5 map positionally to player, kd, plus_minus, adr, kast, rating. -/
def parseRowCells : List HNode → Option PlayerData
  | c0 :: c1 :: c2 :: c3 :: c4 :: c5 :: _ =>
    some { player := some (playerNameOf c0), kd := some (getTextStrip c1),
           plus_minus := some (getTextStrip c2), adr := some (getTextStrip c3),
           kast := some (getTextStrip c4), rating := some (getTextStrip c5) }
  | _ => none

/-- One player row (src/main.py lines 124-163): `cols =
row.find_all("td")` followed by the cell-list step. -/
def parseRow (row : HNode) : Option PlayerData :=
  parseRowCells (findAllDesc row (isTag "td"))

/-- The loop over selected player rows: rows whose parse is skipped
contribute nothing, the rest keep their order. -/
def parsePlayers : List HNode → List PlayerData
  | [] => []
  | row :: rest =>
    match parseRow row with
    | some p => p :: parsePlayers rest
    | none => parsePlayers rest

/-- The rows the source selects as player rows of a table:
`table.find_all("tr", class_=lambda c: c == "")` (src/main.py line 115). -/
def playerRowsOf (table : HNode) : List HNode :=
  findAllDesc table emptyRowP

/-- One statistics table (src/main.py lines 95-166): a table without a
`header-row` row is skipped entirely (`continue`); with a header row but
no `teamName` link the sentinel "Unknown" is used. -/
def parseTable (table : HNode) : Option TeamStats :=
  let table_class := String.intercalate " " ((getClasses table).getD [])
  match findDesc table headerRowP with
  | none => none
  | some header_tr =>
    let team_name :=
      match findDesc header_tr teamNameP with
      | none => "Unknown"
      | some team_name_el => getTextStrip team_name_el
    some { teamName := some team_name, tableType := some table_class,
           players := some (parsePlayers (playerRowsOf table)) }

/-- The loop over the direct child tables of the all-content node. -/
def parseTables : List HNode → List TeamStats
  | [] => []
  | t :: rest =>
    match parseTable t with
    | some ts => ts :: parseTables rest
    | none => parseTables rest

/-- The parsing core of `scrape_match_stats` (src/main.py lines 62-168),
applied to the parsed match page.  A missing statistics container or a
missing all-content node yields the empty record `{}`. -/
def scrape_match_stats (soup : HNode) : MatchData :=
  match findDesc soup matchstatsP with
  | none => { match_url := none, teamStats := none }
  | some match_stats_div =>
    match findDesc match_stats_div allContentP with
    | none => { match_url := none, teamStats := none }
    | some all_content_div =>
      let tables := findAllChildren all_content_div (isTag "table")
      { match_url := none, teamStats := some (parseTables tables) }

/-! ## Orchestrator: scrape_all_matches

The two fallible collaborators (the listing fetch+parse and the per-match
fetch+parse) are passed as `Except`-valued functions; a raised Python
exception is the `error` case. -/

/-- The offsets `range(0, 1100, 100)` of src/main.py line 39. -/
def offsets : List Nat :=
  [0, 100, 200, 300, 400, 500, 600, 700, 800, 900, 1000]

/-- Models `stats["match_url"] = url` (src/main.py line 49). -/
def tagUrl (url : String) (stats : MatchData) : MatchData :=
  { stats with match_url := some url }

/-- The inner loop of `scrape_all_matches` (src/main.py lines 43-54): each
match URL is extracted inside `try`; an error skips that URL only. -/
def crawlUrls (extract : String → Except String MatchData) :
    List String → List MatchData
  | [] => []
  | url :: rest =>
    match extract url with
    | .ok stats => tagUrl url stats :: crawlUrls extract rest
    | .error _ => crawlUrls extract rest

/-- The outer loop of `scrape_all_matches` (src/main.py lines 39-55): the
listing call is outside any `try`, so its error aborts the whole run. -/
def crawlOffsets (listing : Nat → Except String (List String))
    (extract : String → Except String MatchData) :
    List Nat → Except String (List MatchData)
  | [] => .ok []
  | o :: rest =>
    match listing o with
    | .error e => .error e
    | .ok match_urls =>
      (crawlOffsets listing extract rest).map
        (fun ms => crawlUrls extract match_urls ++ ms)

/-- `scrape_all_matches` over the fixed offset range. -/
def scrape_all_matches (listing : Nat → Except String (List String))
    (extract : String → Except String MatchData) :
    Except String (List MatchData) :=
  crawlOffsets listing extract offsets

/-! ## Export stage: save_to_csv -/

/-- One flat CSV row dictionary, all defaults already applied
(src/main.py lines 185-195). -/
structure FlatRow where
  match_url : String
  teamName : String
  tableType : String
  player : String
  kd : String
  plus_minus : String
  adr : String
  kast : String
  rating : String

/-- The row dictionary built for one (match, team, player) triple, with
`dict.get` defaults of the empty string. -/
def flatRowOf (m : MatchData) (t : TeamStats) (p : PlayerData) : FlatRow :=
  { match_url := m.match_url.getD "", teamName := t.teamName.getD "",
    tableType := t.tableType.getD "", player := p.player.getD "",
    kd := p.kd.getD "", plus_minus := p.plus_minus.getD "",
    adr := p.adr.getD "", kast := p.kast.getD "", rating := p.rating.getD "" }

/-- The accumulation loop of `save_to_csv` (src/main.py lines 178-196):
`rows = []` then nested appends over matches, teams, players. -/
def flattenRows (data : List MatchData) : List FlatRow :=
  List.foldl
    (fun rows m =>
      List.foldl
        (fun rows t =>
          List.foldl (fun rows p => rows ++ [flatRowOf m t p])
            rows (t.players.getD []))
        rows (m.teamStats.getD []))
    [] data

/-- The fixed CSV header (src/main.py line 198). -/
def fieldnames : List String :=
  ["match_url", "teamName", "tableType", "player", "kd", "plus_minus",
   "adr", "kast", "rating"]

/-- One written CSV line: the row dictionary projected in `fieldnames`
order, as `csv.DictWriter` does. -/
def rowCells (r : FlatRow) : List String :=
  [r.match_url, r.teamName, r.tableType, r.player, r.kd, r.plus_minus,
   r.adr, r.kast, r.rating]

/-- The lines written by `save_to_csv`: `writeheader()` then
`writerows(rows)` in order (src/main.py lines 199-202). -/
def save_to_csv (data : List MatchData) : List (List String) :=
  fieldnames :: (flattenRows data).map rowCells

/-! ## Helper lemmas -/

theorem foldl_snoc_map {α β : Type} (f : α → β) (ps : List α) :
    ∀ rows : List β,
      List.foldl (fun rows p => rows ++ [f p]) rows ps = rows ++ ps.map f := by
  induction ps with
  | nil => intro rows; simp
  | cons p ps ih => intro rows; simp [List.foldl_cons, ih]

theorem foldl_snoc_flat {α β γ : Type} (g : α → List β) (f : α → β → γ)
    (ts : List α) :
    ∀ rows : List γ,
      List.foldl
        (fun rows t => List.foldl (fun rows p => rows ++ [f t p]) rows (g t))
        rows ts
      = rows ++ ts.flatMap (fun t => (g t).map (f t)) := by
  induction ts with
  | nil => intro rows; simp
  | cons t ts ih =>
    intro rows
    rw [List.foldl_cons, ih, foldl_snoc_map]
    simp [List.append_assoc]

theorem flattenRows_eq (data : List MatchData) :
    flattenRows data = data.flatMap (fun m => (m.teamStats.getD []).flatMap
      (fun t => (t.players.getD []).map (flatRowOf m t))) := by
  have aux : ∀ (ms : List MatchData) (rows : List FlatRow),
      List.foldl
        (fun rows m =>
          List.foldl
            (fun rows t =>
              List.foldl (fun rows p => rows ++ [flatRowOf m t p])
                rows (t.players.getD []))
            rows (m.teamStats.getD []))
        rows ms
      = rows ++ ms.flatMap (fun m => (m.teamStats.getD []).flatMap
          (fun t => (t.players.getD []).map (flatRowOf m t))) := by
    intro ms
    induction ms with
    | nil => intro rows; simp
    | cons m ms ih =>
      intro rows
      rw [List.foldl_cons, ih, foldl_snoc_flat]
      simp [List.append_assoc]
  simpa [flattenRows] using aux data []

theorem length_flatMap_eq_sum {α β : Type} (h : α → List β) (l : List α) :
    (l.flatMap h).length = (l.map (fun a => (h a).length)).sum := by
  induction l with
  | nil => simp
  | cons a l ih => simp [ih]

theorem map_flatMap_eq {α β γ : Type} (f : β → γ) (g : α → List β)
    (l : List α) :
    (l.flatMap g).map f = l.flatMap (fun a => (g a).map f) := by
  induction l with
  | nil => simp
  | cons a l ih => simp [ih]

theorem match_rows_length (m : MatchData) :
    ((m.teamStats.getD []).flatMap
      (fun t => (t.players.getD []).map (flatRowOf m t))).length
      = ((m.teamStats.getD []).map (fun t => (t.players.getD []).length)).sum := by
  rw [length_flatMap_eq_sum]
  simp

/-! ## Claims -/

/-- Claim C1: for any match page whose markup lacks the statistics
container, or whose container lacks the all-maps-combined sub-tab content
node, the extraction returns the empty record `{}` (a MatchRecord with
zero TeamBlocks) and no error is raised (the function is total and takes
the early-return branch). -/
theorem extraction_missing_structure_returns_empty_record (soup : HNode)
    (h : findDesc soup matchstatsP = none ∨
      ∃ msd, findDesc soup matchstatsP = some msd ∧
        findDesc msd allContentP = none) :
    scrape_match_stats soup = { match_url := none, teamStats := none } ∧
      (scrape_match_stats soup).teamStats.getD [] = [] := by
  rcases h with h | ⟨msd, h1, h2⟩
  · constructor <;> simp [scrape_match_stats, h]
  · constructor <;> simp [scrape_match_stats, h1, h2]

/-- A page with no statistics container at all. -/
def c1soup : HNode :=
  .elem "html" none none none [.elem "div" none (some ["content"]) none []]

/-- Witness for C1 at a concrete page with no statistics container. -/
theorem extraction_missing_structure_returns_empty_record_witness :
    (findDesc c1soup matchstatsP = none ∨
      ∃ msd, findDesc c1soup matchstatsP = some msd ∧
        findDesc msd allContentP = none) ∧
    (scrape_match_stats c1soup = { match_url := none, teamStats := none } ∧
      (scrape_match_stats c1soup).teamStats.getD [] = []) :=
  ⟨Or.inl rfl,
    extraction_missing_structure_returns_empty_record c1soup (Or.inl rfl)⟩

/-- Claim C2: the number of FlatRows produced by flattening equals the sum
over all MatchRecords of the sum over that record TeamBlocks of the
PlayerRow count; flattening neither gains nor drops rows. -/
theorem flatrow_count_equals_nested_sum (data : List MatchData) :
    (flattenRows data).length = (data.map (fun m =>
      ((m.teamStats.getD []).map (fun t => (t.players.getD []).length)).sum)).sum := by
  rw [flattenRows_eq, length_flatMap_eq_sum]
  simp only [match_rows_length]

/-- Claim C9: the export writes exactly the fixed header followed by one
line per FlatRow in input structure order (matches, then teams within a
match, then players within a team), each absent field rendered as the
empty string rather than the row being omitted. -/
theorem csv_header_order_and_defaults (data : List MatchData) :
    save_to_csv data =
      ["match_url", "teamName", "tableType", "player", "kd", "plus_minus",
       "adr", "kast", "rating"] ::
      data.flatMap (fun m => (m.teamStats.getD []).flatMap (fun t =>
        (t.players.getD []).map (fun p =>
          [m.match_url.getD "", t.teamName.getD "", t.tableType.getD "",
           p.player.getD "", p.kd.getD "", p.plus_minus.getD "",
           p.adr.getD "", p.kast.getD "", p.rating.getD ""]))) := by
  show fieldnames :: (flattenRows data).map rowCells = _
  rw [flattenRows_eq, map_flatMap_eq]
  simp only [map_flatMap_eq, List.map_map]
  simp [Function.comp_def, fieldnames, rowCells, flatRowOf]

/-- The contribution of one result container: `none` when no anchor is
found (container skipped), otherwise the resolved URL. -/
def conUrl (result_con : HNode) : Option String :=
  (findDesc result_con aResetP).map (fun anchor =>
    let relative_url := (getHref anchor).getD ""
    if strBeginsWith relative_url "/" then siteOrigin ++ relative_url
    else relative_url)

theorem resultsAux_eq :
    ∀ (cs : List HNode) (match_urls : List String),
      List.foldl
        (fun match_urls result_con =>
          match findDesc result_con aResetP with
          | some anchor =>
            let relative_url := (getHref anchor).getD ""
            let full_url :=
              if strBeginsWith relative_url "/" then siteOrigin ++ relative_url
              else relative_url
            match_urls ++ [full_url]
          | none => match_urls)
        match_urls cs
      = match_urls ++ cs.filterMap conUrl := by
  intro cs
  induction cs with
  | nil => intro acc; simp
  | cons c rest ih =>
    intro acc
    rw [List.foldl_cons]
    cases h : findDesc c aResetP with
    | none => simp only [h]; simp [ih, List.filterMap_cons, conUrl, h]
    | some anchor =>
      simp only [h]
      rw [ih]
      simp [List.filterMap_cons, conUrl, h, List.append_assoc]

theorem scrape_results_page_eq (soup : HNode) :
    scrape_results_page soup = (findAllDesc soup resultConP).filterMap conUrl := by
  have h := resultsAux_eq (findAllDesc soup resultConP) []
  simpa [scrape_results_page] using h

/-- Claim C5: every result container with a locatable primary anchor
contributes exactly one URL, in page order (the output is the ordered
`filterMap` of the container list): a site-relative reference (one that
begins with "/") is prefixed with the site origin, any other reference is
returned unchanged. -/
theorem listing_url_resolution (soup : HNode) :
    scrape_results_page soup = (findAllDesc soup resultConP).filterMap conUrl ∧
    ∀ result_con anchor r, findDesc result_con aResetP = some anchor →
      getHref anchor = some r →
      ((strBeginsWith r "/" = true →
          conUrl result_con = some (siteOrigin ++ r)) ∧
       (strBeginsWith r "/" = false → conUrl result_con = some r)) := by
  refine ⟨scrape_results_page_eq soup, ?_⟩
  intro result_con anchor r ha hr
  constructor <;> intro hs <;> simp [conUrl, ha, hr, hs]

/-- A listing page with one site-relative and one absolute anchor. -/
def c5anchor1 : HNode :=
  .elem "a" none (some ["a-reset"]) (some "/matches/1/a") []

def c5con1 : HNode := .elem "div" none (some ["result-con"]) none [c5anchor1]

def c5anchor2 : HNode :=
  .elem "a" none (some ["a-reset"]) (some "https://example.test/matches/2/b") []

def c5con2 : HNode := .elem "div" none (some ["result-con"]) none [c5anchor2]

def c5soup : HNode := .elem "html" none none none [c5con1, c5con2]

/-- Witness for C5: the relative reference gains the origin, the absolute
one is unchanged. -/
theorem listing_url_resolution_witness :
    (findDesc c5con1 aResetP = some c5anchor1 ∧
      getHref c5anchor1 = some "/matches/1/a" ∧
      strBeginsWith "/matches/1/a" "/" = true ∧
      conUrl c5con1 = some (siteOrigin ++ "/matches/1/a")) ∧
    (findDesc c5con2 aResetP = some c5anchor2 ∧
      getHref c5anchor2 = some "https://example.test/matches/2/b" ∧
      strBeginsWith "https://example.test/matches/2/b" "/" = false ∧
      conUrl c5con2 = some "https://example.test/matches/2/b") ∧
    scrape_results_page c5soup =
      (findAllDesc c5soup resultConP).filterMap conUrl :=
  ⟨⟨rfl, rfl, rfl,
    ((listing_url_resolution c5soup).2 c5con1 c5anchor1 "/matches/1/a"
      rfl rfl).1 rfl⟩,
   ⟨rfl, rfl, rfl,
    ((listing_url_resolution c5soup).2 c5con2 c5anchor2
      "https://example.test/matches/2/b" rfl rfl).2 rfl⟩,
   (listing_url_resolution c5soup).1⟩

/-- Claim C10: a result container whose primary anchor is present but
carries no href attribute contributes the empty string to the returned
URL sequence; the container is not skipped. -/
theorem anchor_without_href_yields_empty_url
    (soup result_con anchor : HNode)
    (hmem : result_con ∈ findAllDesc soup resultConP)
    (ha : findDesc result_con aResetP = some anchor)
    (hh : getHref anchor = none) :
    conUrl result_con = some "" ∧ "" ∈ scrape_results_page soup := by
  have hc : conUrl result_con = some "" := by
    have hfalse : strBeginsWith "" "/" = false := rfl
    simp [conUrl, ha, hh, hfalse]
  refine ⟨hc, ?_⟩
  rw [scrape_results_page_eq]
  exact List.mem_filterMap.mpr ⟨result_con, hmem, hc⟩

/-- A listing page whose only container holds an anchor without href. -/
def c10anchor : HNode := .elem "a" none (some ["a-reset"]) none []

def c10con : HNode := .elem "div" none (some ["result-con"]) none [c10anchor]

def c10soup : HNode := .elem "html" none none none [c10con]

/-- Witness for C10 on a concrete container without an href. -/
theorem anchor_without_href_yields_empty_url_witness :
    (c10con ∈ findAllDesc c10soup resultConP) ∧
    findDesc c10con aResetP = some c10anchor ∧
    getHref c10anchor = none ∧
    (conUrl c10con = some "" ∧ "" ∈ scrape_results_page c10soup) := by
  have hmem : c10con ∈ findAllDesc c10soup resultConP := List.Mem.head _
  exact ⟨hmem, rfl, rfl,
    anchor_without_href_yields_empty_url c10soup c10con c10anchor hmem rfl rfl⟩

theorem emptyClassMarker_classes {n : HNode} (h : emptyClassMarker n = true) :
    getClasses n = some [] := by
  cases n with
  | text s => simp [emptyClassMarker] at h
  | elem tag i c href cs =>
    cases c with
    | none => simp [emptyClassMarker] at h
    | some l =>
      cases l with
      | nil => rfl
      | cons a l => simp [emptyClassMarker] at h

theorem hasClass_of_empty {n : HNode} (h : getClasses n = some [])
    (c : String) : hasClass c n = false := by
  cases n with
  | text s => rfl
  | elem tag i cl href cs =>
    cases cl with
    | none => simp [getClasses] at h
    | some l =>
      simp [getClasses] at h
      subst h
      rfl

theorem parseTable_players (table : HNode) :
    ∀ ts, parseTable table = some ts →
      ts.players = some (parsePlayers (playerRowsOf table)) := by
  intro ts h
  unfold parseTable at h
  cases hf : findDesc table headerRowP with
  | none => simp [hf] at h
  | some header_tr =>
    simp only [hf] at h
    have h2 := Option.some.inj h
    rw [← h2]

/-- Claim C3: within a statistics table the rows selected as player rows
are exactly the descendant `tr` rows whose row-level class is the empty
marker (class attribute present with no tokens, i.e. `class=""`); the
TeamBlock player list is built from exactly these rows, so the header row
(class `header-row`), any row with another class annotation, and any row
without a class attribute contributes no PlayerRow. -/
theorem player_row_selection_empty_class_marker (table : HNode) :
    playerRowsOf table =
      (descendants table).filter (fun n => isTag "tr" n && emptyClassMarker n) ∧
    (∀ ts, parseTable table = some ts →
      ts.players = some (parsePlayers (playerRowsOf table))) ∧
    (∀ n, n ∈ playerRowsOf table → getClasses n = some []) ∧
    (∀ n, n ∈ playerRowsOf table → hasClass "header-row" n = false) := by
  refine ⟨rfl, parseTable_players table, ?_, ?_⟩
  · intro n hn
    have h2 := (List.mem_filter.mp hn).2
    have h3 : emptyClassMarker n = true := by
      simp only [emptyRowP, Bool.and_eq_true] at h2
      exact h2.2
    exact emptyClassMarker_classes h3
  · intro n hn
    have h2 := (List.mem_filter.mp hn).2
    have h3 : emptyClassMarker n = true := by
      simp only [emptyRowP, Bool.and_eq_true] at h2
      exact h2.2
    exact hasClass_of_empty (emptyClassMarker_classes h3) _

/-- A table with a header row and one empty-marker player row. -/
def c3header : HNode := .elem "tr" none (some ["header-row"]) none []

def c3row : HNode := .elem "tr" none (some []) none []

def c3table : HNode :=
  .elem "table" none (some ["table", "totalstats"]) none [c3header, c3row]

/-- Witness for C3 on a concrete table: the empty-marker row is selected
and carries the empty marker, and is not the header row. -/
theorem player_row_selection_empty_class_marker_witness :
    (c3row ∈ playerRowsOf c3table) ∧ getClasses c3row = some [] ∧
      hasClass "header-row" c3row = false := by
  have hmem : c3row ∈ playerRowsOf c3table := List.Mem.head _
  exact ⟨hmem,
    (player_row_selection_empty_class_marker c3table).2.2.1 c3row hmem,
    (player_row_selection_empty_class_marker c3table).2.2.2 c3row hmem⟩

theorem parseTables_length_le (ts : List HNode) :
    (parseTables ts).length ≤ ts.length := by
  induction ts with
  | nil => simp [parseTables]
  | cons t rest ih =>
    cases h : parseTable t with
    | none =>
      simp only [parseTables, h, List.length_cons]
      exact Nat.le_succ_of_le ih
    | some ts2 =>
      simp only [parseTables, h, List.length_cons]
      exact Nat.succ_le_succ ih

/-- Claim C4: the extraction enumerates only tables that are direct
children of the all-content node (`find_all("table", recursive=False)`):
the TeamBlock list is computed from that direct-child list alone and its
length is bounded by it, so a table nested deeper inside per-map sections
contributes no TeamBlock. -/
theorem only_direct_child_tables_enumerated (soup msd ac : HNode)
    (h1 : findDesc soup matchstatsP = some msd)
    (h2 : findDesc msd allContentP = some ac) :
    (scrape_match_stats soup).teamStats =
      some (parseTables (findAllChildren ac (isTag "table"))) ∧
    ((scrape_match_stats soup).teamStats.getD []).length ≤
      (findAllChildren ac (isTag "table")).length := by
  have hmain : (scrape_match_stats soup).teamStats =
      some (parseTables (findAllChildren ac (isTag "table"))) := by
    simp [scrape_match_stats, h1, h2]
  refine ⟨hmain, ?_⟩
  rw [hmain]
  simpa using parseTables_length_le (findAllChildren ac (isTag "table"))

/-- A match page whose only table sits inside a wrapper div below the
all-content node, hence is not a direct child. -/
def c4tr : HNode := .elem "tr" none (some ["header-row"]) none []

def c4table : HNode :=
  .elem "table" none (some ["table", "totalstats"]) none [c4tr]

def c4wrap : HNode := .elem "div" none (some ["stats-content"]) none [c4table]

def c4ac : HNode := .elem "div" (some "all-content") none none [c4wrap]

def c4msd : HNode := .elem "div" none (some ["matchstats"]) none [c4ac]

def c4soup : HNode := .elem "html" none none none [c4msd]

/-- Witness for C4: a table that is a descendant but not a direct child of
the all-content node yields no TeamBlock. -/
theorem only_direct_child_tables_enumerated_witness :
    (findDesc c4soup matchstatsP = some c4msd) ∧
    (findDesc c4msd allContentP = some c4ac) ∧
    (c4table ∈ descendants c4ac) ∧
    (findAllChildren c4ac (isTag "table") = []) ∧
    ((scrape_match_stats c4soup).teamStats =
      some (parseTables (findAllChildren c4ac (isTag "table"))) ∧
     ((scrape_match_stats c4soup).teamStats.getD []).length ≤
      (findAllChildren c4ac (isTag "table")).length) := by
  refine ⟨rfl, rfl, ?_, rfl,
    only_direct_child_tables_enumerated c4soup c4msd c4ac rfl rfl⟩
  exact List.Mem.tail _ (List.Mem.head _)

/-! ## Claim C6 (corrected) -/

/-- A direct-child table with an empty-marker row but no header row. -/
def c6row : HNode := .elem "tr" none (some []) none []

def c6table : HNode :=
  .elem "table" none (some ["table", "totalstats"]) none [c6row]

def c6ac : HNode := .elem "div" (some "all-content") none none [c6table]

def c6msd : HNode := .elem "div" none (some ["matchstats"]) none [c6ac]

def c6soup : HNode := .elem "html" none none none [c6msd]

/-- Counterexample to C6 as stated: on a page whose single direct-child
table has no header row, the extraction yields NO TeamBlock for that table
(in particular none named "Unknown"); the table is skipped, so the
TeamBlock list is empty. -/
theorem missing_header_row_skips_table_cex :
    findDesc c6table headerRowP = none ∧
    findAllChildren c6ac (isTag "table") = [c6table] ∧
    (scrape_match_stats c6soup).teamStats = some [] :=
  ⟨rfl, rfl, rfl⟩

/-- Claim C6 amended: when the header row is present but its team-name
link is absent, the table yields a TeamBlock named "Unknown"; when the
header row itself is absent, the table yields no TeamBlock at all (it is
skipped with `continue`, not failed). -/
theorem missing_header_row_behavior (table : HNode) :
    (findDesc table headerRowP = none → parseTable table = none) ∧
    (∀ header_tr, findDesc table headerRowP = some header_tr →
      findDesc header_tr teamNameP = none →
      parseTable table = some
        { teamName := some "Unknown",
          tableType := some (String.intercalate " " ((getClasses table).getD [])),
          players := some (parsePlayers (playerRowsOf table)) }) := by
  constructor
  · intro h
    simp [parseTable, h]
  · intro header_tr h1 h2
    simp [parseTable, h1, h2]

/-- A table whose header row exists but carries no team-name link. -/
def c6btr : HNode := .elem "tr" none (some ["header-row"]) none []

def c6btable : HNode := .elem "table" none (some ["table", "ctstats"]) none [c6btr]

/-- Witness for the amended C6 on both branches. -/
theorem missing_header_row_behavior_witness :
    (findDesc c6table headerRowP = none ∧ parseTable c6table = none) ∧
    (findDesc c6btable headerRowP = some c6btr ∧
      findDesc c6btr teamNameP = none ∧
      parseTable c6btable = some
        { teamName := some "Unknown",
          tableType := some (String.intercalate " " ((getClasses c6btable).getD [])),
          players := some (parsePlayers (playerRowsOf c6btable)) }) :=
  ⟨⟨rfl, (missing_header_row_behavior c6table).1 rfl⟩,
   ⟨rfl, rfl, (missing_header_row_behavior c6btable).2 c6btr rfl rfl⟩⟩

/-! ## Claim C7 -/

theorem parseRowCells_short (l : List HNode) (h : l.length < 6) :
    parseRowCells l = none := by
  rcases l with _ | ⟨c0, _ | ⟨c1, _ | ⟨c2, _ | ⟨c3, _ | ⟨c4, _ | ⟨c5, rest⟩⟩⟩⟩⟩⟩
  · rfl
  · rfl
  · rfl
  · rfl
  · rfl
  · rfl
  · simp [List.length_cons] at h
    omega

/-- Claim C7: a selected row with fewer than six cell positions
contributes no PlayerRow; removing such a row from the selected row list
leaves the parsed players of the other rows unchanged; a row with at
least six cells maps cells 0-5 positionally to player name (through the
cell link, stripped), kill-death, plus-minus, ADR, KAST and rating as
stripped text. -/
theorem short_rows_skipped_cells_positional :
    (∀ row : HNode, (findAllDesc row (isTag "td")).length < 6 →
      parseRow row = none) ∧
    (∀ (rows1 rows2 : List HNode) (row : HNode), parseRow row = none →
      parsePlayers (rows1 ++ row :: rows2) = parsePlayers (rows1 ++ rows2)) ∧
    (∀ (row c0 c1 c2 c3 c4 c5 : HNode) (rest : List HNode),
      findAllDesc row (isTag "td") = c0 :: c1 :: c2 :: c3 :: c4 :: c5 :: rest →
      parseRow row = some
        { player := some (playerNameOf c0), kd := some (getTextStrip c1),
          plus_minus := some (getTextStrip c2), adr := some (getTextStrip c3),
          kast := some (getTextStrip c4),
          rating := some (getTextStrip c5) }) := by
  refine ⟨?_, ?_, ?_⟩
  · intro row h
    unfold parseRow
    exact parseRowCells_short _ h
  · intro rows1 rows2 row h
    induction rows1 with
    | nil => simp [parsePlayers, h]
    | cons r rs ih =>
      simp only [List.cons_append]
      unfold parsePlayers
      cases hr : parseRow r with
      | some p => simp [hr, ih]
      | none => simp [hr, ih]
  · intro row c0 c1 c2 c3 c4 c5 rest h
    unfold parseRow
    rw [h]
    rfl

/-- Concrete player-row nodes for the C7 witness. -/
def c7link : HNode := .elem "a" none none (some "/player/1/jks") [.text " jks "]

def c7c0 : HNode := .elem "td" none (some ["players"]) none [c7link]

def c7c1 : HNode := .elem "td" none none none [.text " 20-15 "]

def c7c2 : HNode := .elem "td" none none none [.text "+5"]

def c7c3 : HNode := .elem "td" none none none [.text "80.3"]

def c7c4 : HNode := .elem "td" none none none [.text "72%"]

def c7c5 : HNode := .elem "td" none none none [.text "1.15"]

def c7row6 : HNode :=
  .elem "tr" none (some []) none [c7c0, c7c1, c7c2, c7c3, c7c4, c7c5]

def c7row2 : HNode := .elem "tr" none (some []) none [c7c1, c7c2]

/-- Witness for C7: a two-cell row is skipped and leaves its neighbour
row unaffected; a six-cell row maps positionally. -/
theorem short_rows_skipped_cells_positional_witness :
    ((findAllDesc c7row2 (isTag "td")).length < 6 ∧ parseRow c7row2 = none) ∧
    parsePlayers ([c7row6] ++ c7row2 :: []) = parsePlayers ([c7row6] ++ []) ∧
    (findAllDesc c7row6 (isTag "td") =
        c7c0 :: c7c1 :: c7c2 :: c7c3 :: c7c4 :: c7c5 :: [] ∧
      parseRow c7row6 = some
        { player := some (playerNameOf c7c0), kd := some (getTextStrip c7c1),
          plus_minus := some (getTextStrip c7c2),
          adr := some (getTextStrip c7c3), kast := some (getTextStrip c7c4),
          rating := some (getTextStrip c7c5) }) := by
  have hlen : (findAllDesc c7row2 (isTag "td")).length < 6 := by decide
  have hthm := short_rows_skipped_cells_positional
  exact ⟨⟨hlen, hthm.1 c7row2 hlen⟩,
    hthm.2.1 [c7row6] [] c7row2 (hthm.1 c7row2 hlen),
    ⟨rfl, hthm.2.2 c7row6 c7c0 c7c1 c7c2 c7c3 c7c4 c7c5 [] rfl⟩⟩

/-! ## Claim C8 -/

/-- Claim C8: an error raised while extracting a single match is caught
and that match is omitted while the crawl proceeds (the inner loop result
equals the result without that URL); when every listing call succeeds the
run returns `ok`; an error raised by a listing call, after any prefix of
successful offsets, is not caught and aborts the whole run with that
error. -/
theorem per_match_errors_contained_listing_errors_propagate :
    (∀ (extract : String → Except String MatchData) url rest e,
      extract url = .error e →
      crawlUrls extract (url :: rest) = crawlUrls extract rest) ∧
    (∀ (listing : Nat → Except String (List String))
        (extract : String → Except String MatchData),
      (∀ o ∈ offsets, ∃ us, listing o = .ok us) →
      ∃ ms, scrape_all_matches listing extract = .ok ms) ∧
    (∀ (listing : Nat → Except String (List String))
        (extract : String → Except String MatchData)
        (os1 : List Nat) (o : Nat) (os2 : List Nat) (e : String),
      (∀ q ∈ os1, ∃ us, listing q = .ok us) → listing o = .error e →
      crawlOffsets listing extract (os1 ++ o :: os2) = .error e) := by
  refine ⟨?_, ?_, ?_⟩
  · intro extract url rest e h
    simp [crawlUrls, h]
  · intro listing extract h
    have aux : ∀ os : List Nat, (∀ o ∈ os, ∃ us, listing o = .ok us) →
        ∃ ms, crawlOffsets listing extract os = .ok ms := by
      intro os
      induction os with
      | nil => intro _; exact ⟨[], rfl⟩
      | cons o rest ih =>
        intro hos
        obtain ⟨us, hus⟩ := hos o (by simp)
        obtain ⟨ms, hms⟩ := ih (fun q hq => hos q (by simp [hq]))
        refine ⟨crawlUrls extract us ++ ms, ?_⟩
        simp only [crawlOffsets, hus, hms]
        rfl
    exact aux offsets h
  · intro listing extract os1 o os2 e h1 h2
    induction os1 with
    | nil => simp [crawlOffsets, h2]
    | cons q qs ih =>
      obtain ⟨us, hus⟩ := h1 q (by simp)
      have ih2 := ih (fun r hr => h1 r (by simp [hr]))
      simp only [List.cons_append, crawlOffsets, hus, List.append_eq, ih2]
      rfl

/-- Concrete collaborators for the C8 witness. -/
def wMatch : MatchData := { match_url := none, teamStats := some [] }

def wExtract : String → Except String MatchData :=
  fun url => if url == "bad" then .error "boom" else .ok wMatch

def wListingOk : Nat → Except String (List String) := fun _ => .ok ["good"]

def wListingBad : Nat → Except String (List String) :=
  fun o => if o == 0 then .ok ["good"] else .error "http 500"

/-- Witness for C8: the failing URL is dropped while the crawl continues,
an all-ok listing yields an ok run, and a listing failure at offset 100
aborts with that error. -/
theorem per_match_errors_contained_listing_errors_propagate_witness :
    (wExtract "bad" = .error "boom" ∧
      crawlUrls wExtract ["bad", "good"] = crawlUrls wExtract ["good"]) ∧
    (∃ ms, scrape_all_matches wListingOk wExtract = .ok ms) ∧
    (wListingBad 100 = .error "http 500" ∧
      crawlOffsets wListingBad wExtract ([0] ++ 100 :: [200]) =
        .error "http 500") := by
  have hthm := per_match_errors_contained_listing_errors_propagate
  refine ⟨⟨rfl, hthm.1 wExtract "bad" ["good"] "boom" rfl⟩,
    hthm.2.1 wListingOk wExtract (fun o _ => ⟨["good"], rfl⟩),
    ⟨rfl, hthm.2.2 wListingBad wExtract [0] 100 [200] "http 500"
      (fun q hq => ⟨["good"], ?_⟩) rfl⟩⟩
  have hq0 : q = 0 := by simpa using hq
  subst hq0
  rfl
